import Mathlib

/-!
# Verification of the folio-spec-worker document-conversion pipeline

A shallow embedding, in Lean 4, of the document-structure conversion pipeline
implemented in `workers/folio-spec-worker/app.py`:

* the Encoding Fixer (`fix_encoding`),
* the PDF line classifier (the per-line body of `extract_text_from_pdf`),
* DOCX list detection (`get_list_info`) and run extraction
  (`extract_runs_with_formatting`),
* the Spec Builder (`generate_spec_from_content` and
  `convert_text_children_to_spec`),
* the HTML renderer (`spec_to_html`) and the TipTap renderer (`spec_to_tiptap`).

Python strings are modelled as Lean `String`/`List Char`; Python `str.replace`,
`str.strip`, `in`, `startswith`/`endswith` and `lower` are re-implemented on
`List Char` so that every definition is executable by kernel reduction.
Python dicts with optional keys are modelled as structures whose fields hold
the result of the corresponding `dict.get(key, default)` (an absent key is the
default value; comments note the default at each field).  `uuid4` node ids are
omitted: they are fresh random identifiers that no property below depends on.
Font sizes (floats in the source, used only with `max` and order comparisons,
both exact) are modelled as rationals.

The two renderers perform no writes to the tree they walk; following the
state-passing discipline for effectful code, each rendering function returns
its output *together with* the (threaded) tree, so that read-only-ness is a
provable statement rather than an artifact of purity.
-/

/-! ## String utilities (models of Python primitives) -/

/-- Python whitespace for `str.strip()`: ASCII whitespace plus the common
Unicode space characters recognised by `str.isspace`. -/
def pyIsSpace (c : Char) : Bool :=
  c = ' ' || c = '\t' || c = '\n' || c = '\r' || c = '\x0b' || c = '\x0c' ||
  c = '\u0085' || c = ' ' || c = ' ' ||
  (' ' ≤ c && c ≤ ' ') ||
  c = ' ' || c = ' ' || c = ' ' || c = ' ' || c = '　'

/-- Python `str.strip()` on a character list. -/
def pyStripL (s : List Char) : List Char :=
  ((s.dropWhile pyIsSpace).reverse.dropWhile pyIsSpace).reverse

/-- Python `str.strip()`. -/
def pyStrip (s : String) : String := String.mk (pyStripL s.data)

/-- Predicate `leadsWith p s` : the list `p` is a leading segment of `s`
(Python `s.startswith(p)`). -/
def leadsWith : List Char → List Char → Bool
  | [], _ => true
  | _ :: _, [] => false
  | p :: ps, c :: cs => p == c && leadsWith ps cs

/-- Predicate `containsSub needle hay` : `needle` occurs contiguously in `hay`
(Python `needle in hay`). -/
def containsSub (needle : List Char) : List Char → Bool
  | [] => needle.isEmpty
  | c :: cs => leadsWith needle (c :: cs) || containsSub needle cs

/-- Python `sub in s` on strings. -/
def strContains (s sub : String) : Bool := containsSub sub.data s.data

/-- Python `s.endswith(sfx)`. -/
def strEndsWith (s sfx : String) : Bool := leadsWith sfx.data.reverse s.data.reverse

/-- Python `str.lower()` (the strings it is applied to in the source are
ASCII-cased style and font names). -/
def strLower (s : String) : String := String.mk (s.data.map Char.toLower)

/-- One fuelled pass of Python `str.replace(p, r)` over a character list:
leftmost match first, non-overlapping, all occurrences.  The fuel argument
makes the recursion structural; `pyReplace` supplies fuel equal to the input
length, which is always sufficient since every step consumes at least one
character. -/
def replFuel (p r : List Char) : Nat → List Char → List Char
  | _, [] => []
  | 0, s => s
  | fuel + 1, c :: cs =>
    if leadsWith p (c :: cs) && !p.isEmpty then
      r ++ replFuel p r fuel (cs.drop (p.length - 1))
    else
      c :: replFuel p r fuel cs

/-- Python `s.replace(p, r)` (for the nonempty patterns used in the source). -/
def pyReplace (s p r : List Char) : List Char := replFuel p r s.length s

/-! ### Lemmas about the string utilities -/

theorem leadsWith_head {p : Char} {ps : List Char} {c : Char} {cs : List Char}
    (h : leadsWith (p :: ps) (c :: cs) = true) : p = c := by
  simp only [leadsWith, Bool.and_eq_true, beq_iff_eq] at h
  exact h.1

/-- If the first character of the pattern does not occur in `s`, a `replFuel`
pass leaves `s` unchanged (any fuel). -/
theorem replFuel_of_head_not_mem {hc : Char} {p' r : List Char} :
    ∀ (fuel : Nat) (s : List Char), hc ∉ s → replFuel (hc :: p') r fuel s = s := by
  intro fuel
  induction fuel with
  | zero => intro s _; cases s <;> rfl
  | succ f ih =>
    intro s hmem
    cases s with
    | nil => rfl
    | cons c cs =>
      have hne : leadsWith (hc :: p') (c :: cs) = false := by
        cases hlw : leadsWith (hc :: p') (c :: cs) with
        | false => rfl
        | true =>
          exact absurd (leadsWith_head hlw ▸ List.mem_cons_self c cs) hmem
      have htail : hc ∉ cs := fun h => hmem (List.mem_cons_of_mem _ h)
      simp [replFuel, hne, ih cs htail]

theorem pyReplace_of_head_not_mem {hc : Char} {p' r : List Char} (s : List Char)
    (h : hc ∉ s) : pyReplace s (hc :: p') r = s :=
  replFuel_of_head_not_mem s.length s h

/-- Every character of a `replFuel` result comes from the input or from the
replacement. -/
theorem mem_replFuel {p r : List Char} :
    ∀ (fuel : Nat) (s : List Char) (c : Char),
      c ∈ replFuel p r fuel s → c ∈ s ∨ c ∈ r := by
  intro fuel
  induction fuel with
  | zero =>
    intro s c h
    cases s with
    | nil => simp [replFuel] at h
    | cons a as => exact Or.inl h
  | succ f ih =>
    intro s c h
    cases s with
    | nil => simp [replFuel] at h
    | cons a as =>
      by_cases hcond : (leadsWith p (a :: as) && !p.isEmpty) = true
      · rw [replFuel, if_pos hcond] at h
        rcases List.mem_append.mp h with hr | hrec
        · exact Or.inr hr
        · rcases ih _ c hrec with hs | hr
          · exact Or.inl (List.mem_cons_of_mem _ (List.mem_of_mem_drop hs))
          · exact Or.inr hr
      · rw [replFuel, if_neg hcond] at h
        rcases List.mem_cons.mp h with rfl | hrec
        · exact Or.inl (List.mem_cons_self _ _)
        · rcases ih _ c hrec with hs | hr
          · exact Or.inl (List.mem_cons_of_mem _ hs)
          · exact Or.inr hr

theorem mem_pyReplace {p r : List Char} {s : List Char} {c : Char}
    (h : c ∈ pyReplace s p r) : c ∈ s ∨ c ∈ r :=
  mem_replFuel s.length s c h

/-- Replacing the single-character pattern `[x]` removes every occurrence of
`x`, provided `x` does not occur in the replacement and the fuel covers the
input. -/
theorem not_mem_replFuel_single {x : Char} {r : List Char} (hxr : x ∉ r) :
    ∀ (fuel : Nat) (s : List Char), s.length ≤ fuel → x ∉ replFuel [x] r fuel s := by
  intro fuel
  induction fuel with
  | zero =>
    intro s hlen
    have hnil : s = [] := List.eq_nil_of_length_eq_zero (Nat.le_zero.mp hlen)
    subst hnil
    simp [replFuel]
  | succ f ih =>
    intro s hlen
    cases s with
    | nil => simp [replFuel]
    | cons a as =>
      have hlen' : as.length ≤ f := Nat.le_of_succ_le_succ (by simpa using hlen)
      rw [replFuel]
      by_cases hax : x = a
      · subst hax
        rw [if_pos (by simp [leadsWith])]
        intro hmem
        rcases List.mem_append.mp hmem with hr | hrec
        · exact hxr hr
        · have hdrop : List.drop (([x] : List Char).length - 1) as = as := by simp
          rw [hdrop] at hrec
          exact ih as hlen' hrec
      · rw [if_neg (by simp [leadsWith, hax])]
        intro hmem
        rcases List.mem_cons.mp hmem with rfl | hrec
        · exact hax rfl
        · exact ih as hlen' hrec

theorem not_mem_pyReplace_single {x : Char} {r : List Char} (hxr : x ∉ r)
    (s : List Char) : x ∉ pyReplace s [x] r :=
  not_mem_replFuel_single hxr s.length s (Nat.le_refl _)

theorem leadsWith_append_self : ∀ (n post : List Char), leadsWith n (n ++ post) = true := by
  intro n
  induction n with
  | nil => intro post; rfl
  | cons c cs ih => intro post; simp [leadsWith, ih]

theorem containsSub_nil_needle : ∀ (l : List Char), containsSub [] l = true := by
  intro l
  induction l with
  | nil => rfl
  | cons c cs ih => simp [containsSub, leadsWith, ih]

/-- A needle `needle` is found inside `pre ++ needle ++ post`. -/
theorem containsSub_append_self (n pre post : List Char) :
    containsSub n (pre ++ n ++ post) = true := by
  induction pre with
  | nil =>
    cases n with
    | nil => simpa using containsSub_nil_needle post
    | cons c cs =>
      have : (c :: cs) ++ post = c :: (cs ++ post) := rfl
      simp only [List.nil_append, this, containsSub]
      have hl : leadsWith (c :: cs) ((c :: cs) ++ post) = true := leadsWith_append_self _ _
      rw [this] at hl
      simp [hl]
  | cons p ps ih =>
    have : (p :: ps) ++ n ++ post = p :: (ps ++ n ++ post) := rfl
    rw [this, containsSub, ih]
    simp

/-! ## The Encoding Fixer (`fix_encoding`)

The source builds a Python dict literal of replacements and applies them in
insertion order.  The literal's first two keys are the *same* three-character
string `'â€"'` (U+00E2, U+20AC, U+0022) — the intended em-dash and en-dash
mojibake differ only in a character that was itself already mis-decoded to
`"` in the source file — so the dict keeps one entry at the first position
whose value is the *second* value, the en-dash.  The remaining entries follow
in order. -/

/-- The Encoding Fixer on character lists: the 18 `str.replace` steps of
`fix_encoding`, in Python dict insertion order. -/
def fixEncodingL (text : List Char) : List Char :=
  let t1 := pyReplace text ['â', '€', '"'] ['–']
  let t2 := pyReplace t1 ['â', '€', '™'] ['\x27']
  let t3 := pyReplace t2 ['â', '€', 'œ'] ['"']
  let t4 := pyReplace t3 ['â', '€'] ['"']
  let t5 := pyReplace t4 ['â', '€', '¦'] ['…']
  let t6 := pyReplace t5 ['Ã', '©'] ['é']
  let t7 := pyReplace t6 ['Ã', '¨'] ['è']
  let t8 := pyReplace t7 ['Ã', '«'] ['ë']
  let t9 := pyReplace t8 ['Ã', '¯'] ['ï']
  let t10 := pyReplace t9 ['Ã', '¶'] ['ö']
  let t11 := pyReplace t10 ['Ã', '¼'] ['ü']
  let t12 := pyReplace t11 ['Ã', ' '] ['à']
  let t13 := pyReplace t12 ['Γ', 'Ç', 'ô'] ['–']
  let t14 := pyReplace t13 ['Γ', 'Ç', 'ö'] ['—']
  let t15 := pyReplace t14 ['Γ', 'Ç', 'ï'] []
  let t16 := pyReplace t15 ['Γ', 'Ç', '£'] ['"']
  let t17 := pyReplace t16 ['Γ', 'Ç', 'ª'] ['…']
  let t18 := pyReplace t17 ['​'] []
  pyReplace t18 ['﻿'] []

/-- Function `fix_encoding` from the source, on Lean strings. -/
def fix_encoding (text : String) : String := String.mk (fixEncodingL text.data)

/-! ## Extractor output: blocks (transient Python dicts)

A `Block` models one content-block dict produced by the extractors and
consumed by `generate_spec_from_content`.  Each field holds the value the
builder's `block.get(key, default)` would see, so an absent key is encoded by
the stated default (`btype` default `"paragraph"`, `text` default `""`,
`level` default `2`, `children`/`rows`/`items` default empty). -/

/-- One entry of a block's `"children"` list (an inline run produced by
`extract_runs_with_formatting`): a dict `{"type": ..., "text": ..., "marks":
[{"type": tag}, ...]}`.  Marks are modelled by their type tags; an absent
`"marks"` key is the empty list. -/
structure RunNode where
  rtype : String
  text : String
  marks : List String
deriving DecidableEq, Repr

/-- One entry of a list block's `"items"` list. -/
structure ItemB where
  text : String
  children : List RunNode
deriving DecidableEq, Repr

structure Block where
  btype : String
  text : String
  level : Int
  children : List RunNode
  rows : List (List String)
  items : List ItemB
deriving DecidableEq, Repr

/-- One page dict of `page_contents` (`{"page_number": ..., "content": ...}`). -/
structure Page where
  page_number : Int
  content : List Block
deriving DecidableEq, Repr

/-! ## PDF Extractor: per-line classification

`extract_text_from_pdf` walks PyMuPDF spans line by line.  A `Span` models one
span dict: `text` is `span.get("text", "")`, `size` is `span.get("size", 12)`
(a float used only in `max` and order comparisons, both exact, hence modelled
as a rational), `font` is `span.get("font", "")`. -/

structure Span where
  text : String
  size : ℚ
  font : String
deriving DecidableEq, Repr

/-- The body of the per-line loop of `extract_text_from_pdf`: merge the spans
of one line, track max font size and boldness, drop whitespace-only lines,
fix encoding, and classify into a heading (level 1 or 2) or paragraph block.
Returns `none` when the line produces no block. -/
def extract_line (spans : List Span) : Option Block :=
  let line_text := spans.foldl (fun acc sp => acc ++ sp.text) ""
  let font_size := spans.foldl (fun acc sp => max acc sp.size) (0 : ℚ)
  let is_bold := spans.foldl (fun acc sp => acc || strContains (strLower sp.font) "bold") false
  let stripped := pyStrip line_text
  if stripped = "" then none
  else
    let fixed := fix_encoding stripped
    if font_size ≥ 16 || is_bold then
      some { btype := "heading", level := if font_size ≥ 18 then 1 else 2,
             text := fixed, children := [], rows := [], items := [] }
    else
      some { btype := "paragraph", level := 2,
             text := fixed, children := [], rows := [], items := [] }

/-! ## DOCX Extractor: list detection and run extraction -/

/-- Numbering properties of a DOCX paragraph (`pPr.numPr`), when present:
`ilvl.val` and `numId.val` (each `none` when the child element is absent, in
which case the source falls back to `0`). -/
structure NumPr where
  ilvl : Option Int
  numId : Option Int
deriving DecidableEq, Repr

/-- The slice of a python-docx paragraph that `get_list_info` and
`extract_runs_with_formatting` inspect.  `styleName` is `paragraph.style.name`
with `""` for a missing style; `text` is `paragraph.text`. -/
structure Para where
  numPr : Option NumPr
  styleName : String
  text : String
deriving DecidableEq, Repr

/-- Result dict of `get_list_info`: either `{"is_list": False}` or
`{"is_list": True, "level": .., "ordered": .., "num_id": ..}`. -/
inductive ListInfo where
  | noList : ListInfo
  | list (level : Int) (ordered : Bool) (num_id : Int) : ListInfo
deriving DecidableEq, Repr

/-- The single-character bullet glyphs accepted by the text-prefix fallback
(`'•', '●', '○', '▪', '-', '*'`). -/
def bulletGlyphs : List Char := ['•', '●', '○', '▪', '-', '*']

/-- Function `get_list_info` from the source.  The numbering-properties branch sits in
a `try`; the model assumes the XML accesses themselves do not raise (the only
foreseeable failure, absent attributes, is modelled by the `Option` fields). -/
def get_list_info (p : Para) : ListInfo :=
  match p.numPr with
  | some np =>
    let level := np.ilvl.getD 0
    let num_id := np.numId.getD 0
    let is_ordered := decide (num_id ≥ 10) || strContains (strLower p.styleName) "number"
    ListInfo.list level is_ordered num_id
  | none =>
    let style_name := strLower p.styleName
    if strContains style_name "list" then
      ListInfo.list 0 (strContains style_name "number" || strContains style_name "ordered") 0
    else
      match (pyStrip p.text).data with
      | [] => ListInfo.noList
      | c0 :: rest =>
        if c0 ∈ bulletGlyphs then ListInfo.list 0 false (-1)
        else
          match rest with
          | c1 :: _ :: _ =>
            if c0.isDigit && (c1 = '.' || c1 = ')' || c1 = ':') then
              ListInfo.list 0 true (-2)
            else ListInfo.noList
          | _ => ListInfo.noList

/-- A python-docx run as read by `extract_runs_with_formatting`: its text and
its `bold`/`italic`/`underline` flags (`None` and `False` both model as
`false`, the only distinction the source's truthiness tests make). -/
structure DocxRun where
  text : String
  bold : Bool
  italic : Bool
  underline : Bool
deriving DecidableEq, Repr

/-- Function `extract_runs_with_formatting` from the source: preserve inline runs with
their mark tags, skipping empty runs, falling back to one plain text node
holding `paragraph.text` when there are no (usable) runs. -/
def extract_runs_with_formatting (runs : List DocxRun) (paraText : String) : List RunNode :=
  if runs.isEmpty then [{ rtype := "text", text := paraText, marks := [] }]
  else
    let result := runs.filterMap (fun run =>
      if run.text = "" then none
      else
        let marks := (if run.bold then ["bold"] else []) ++
                     (if run.italic then ["italic"] else []) ++
                     (if run.underline then ["underline"] else [])
        some { rtype := "text", text := run.text, marks := marks })
    if result.isEmpty then [{ rtype := "text", text := paraText, marks := [] }]
    else result

/-! ## The canonical tree: SpecNode

A node dict of the NLdoc spec tree.  Fields model `node.get(key, default)`:
`ntype` is `node.get("type", "")`, `children` is `node.get("children", [])`,
`level` is `node.get("level")` (present only on Heading nodes), `order` is
`node.get("order")` (present only on OrderedList items), `text` is
`node.get("text", "")` and `marks` is `node.get("marks", [])` (mark dicts
modelled by their `"type"` tags).  The random `"id"` field is omitted (see
the header). -/
inductive SpecNode : Type where
  | mk (ntype : String) (level : Option Int) (order : Option Int) (text : String)
       (marks : List String) (children : List SpecNode) : SpecNode

def SpecNode.ntypeOf : SpecNode → String
  | .mk t _ _ _ _ _ => t

def SpecNode.levelOf : SpecNode → Option Int
  | .mk _ lvl _ _ _ _ => lvl

def SpecNode.orderOf : SpecNode → Option Int
  | .mk _ _ ord _ _ _ => ord

def SpecNode.textOf : SpecNode → String
  | .mk _ _ _ tx _ _ => tx

def SpecNode.marksOf : SpecNode → List String
  | .mk _ _ _ _ mks _ => mks

def SpecNode.childrenOf : SpecNode → List SpecNode
  | .mk _ _ _ _ _ cs => cs

/-- The fully-qualified NLdoc type tags used by the builder. -/
def tDocument : String := "https://spec.nldoc.nl/Resource/Document"
def tHeading : String := "https://spec.nldoc.nl/Resource/Heading"
def tParagraph : String := "https://spec.nldoc.nl/Resource/Paragraph"
def tText : String := "https://spec.nldoc.nl/Resource/Text"
def tTable : String := "https://spec.nldoc.nl/Resource/Table"
def tTableHeaderRow : String := "https://spec.nldoc.nl/Resource/TableHeaderRow"
def tTableRow : String := "https://spec.nldoc.nl/Resource/TableRow"
def tTableCell : String := "https://spec.nldoc.nl/Resource/TableCell"
def tBulletList : String := "https://spec.nldoc.nl/Resource/BulletList"
def tOrderedList : String := "https://spec.nldoc.nl/Resource/OrderedList"
def tListItem : String := "https://spec.nldoc.nl/Resource/ListItem"

/-- A Text node `{"type": .../Text, "text": t, "marks": mks}` (`marks` key
present only when the list is nonempty, which the `[]` encoding captures). -/
def mkText (t : String) (mks : List String) : SpecNode :=
  SpecNode.mk tText none none t mks []

/-! ## The Spec Builder (`generate_spec_from_content`) -/

/-- Function `convert_text_children_to_spec` from the source: keep the `"text"`-typed
children as Text nodes (with their marks), and fall back to a single empty
Text node if nothing qualifies. -/
def convert_text_children_to_spec (text_children : List RunNode) : List SpecNode :=
  let result := text_children.filterMap (fun child =>
    if child.rtype = "text" then some (mkText child.text child.marks) else none)
  if result.isEmpty then [mkText "" []] else result

/-- A table cell of the builder: TableCell wrapping a Paragraph wrapping a
Text node holding the cell's text. -/
def buildTableCell (cell_text : String) : SpecNode :=
  SpecNode.mk tTableCell none none "" []
    [SpecNode.mk tParagraph none none "" [] [mkText cell_text []]]

/-- The `for row_idx, row in enumerate(rows)` loop of the table branch: the
row at index 0 becomes a TableHeaderRow, later rows TableRow. -/
def buildTableRows : Nat → List (List String) → List SpecNode
  | _, [] => []
  | row_idx, row :: rest =>
    SpecNode.mk (if row_idx = 0 then tTableHeaderRow else tTableRow) none none "" []
        (row.map buildTableCell)
      :: buildTableRows (row_idx + 1) rest

/-- One bullet-list item: ListItem wrapping a Paragraph of the item's inline
content (the item's `children` runs, or its plain text). -/
def buildBulletItem (item : ItemB) : SpecNode :=
  let spec_children :=
    if item.children.isEmpty then [mkText item.text []]
    else convert_text_children_to_spec item.children
  SpecNode.mk tListItem none none "" []
    [SpecNode.mk tParagraph none none "" [] spec_children]

/-- The `for idx, item in enumerate(...)` loop of the ordered-list branch:
items additionally carry a 1-based `order`. -/
def buildOrderedItems : Nat → List ItemB → List SpecNode
  | _, [] => []
  | idx, item :: rest =>
    let spec_children :=
      if item.children.isEmpty then [mkText item.text []]
      else convert_text_children_to_spec item.children
    SpecNode.mk tListItem none (some ((idx : Int) + 1)) "" []
        [SpecNode.mk tParagraph none none "" [] spec_children]
      :: buildOrderedItems (idx + 1) rest

/-- The body of the builder's per-block loop: each block appends at most one
node to the document's children (`none` = the block contributes nothing). -/
def buildBlock (block : Block) : Option SpecNode :=
  let block_type := block.btype
  let text := pyStrip block.text
  let text_children := block.children
  if block_type = "heading" then
    let level := block.level
    -- NLdoc uses level * 10 (10=h1, 20=h2, 30=h3, etc)
    let heading_level := if level ≤ 6 then level * 10 else 60
    let spec_children :=
      if text_children.isEmpty then [mkText text []]
      else convert_text_children_to_spec text_children
    some (SpecNode.mk tHeading (some heading_level) none "" [] spec_children)
  else if block_type = "table" then
    let table_rows := buildTableRows 0 block.rows
    if table_rows.isEmpty then none
    else some (SpecNode.mk tTable none none "" [] table_rows)
  else if block_type = "bulletList" then
    let list_items := block.items.map buildBulletItem
    if list_items.isEmpty then none
    else some (SpecNode.mk tBulletList none none "" [] list_items)
  else if block_type = "orderedList" then
    let list_items := buildOrderedItems 0 block.items
    if list_items.isEmpty then none
    else some (SpecNode.mk tOrderedList none none "" [] list_items)
  else if block_type = "paragraph" then
    if text = "" then none
    else
      let spec_children :=
        if text_children.isEmpty then [mkText text []]
        else convert_text_children_to_spec text_children
      some (SpecNode.mk tParagraph none none "" [] spec_children)
  else none

/-- The fallback paragraph text used when no content could be extracted. -/
def fallback_text (page_count : Int) : String :=
  "Dit document bevat " ++ toString page_count ++
    " pagina\x27s maar de tekst kon niet worden geëxtraheerd."

/-- The fallback paragraph node appended when the children list is empty. -/
def fallbackParagraph (page_count : Int) : SpecNode :=
  SpecNode.mk tParagraph none none "" [] [mkText (fallback_text page_count) []]

/-- Function `generate_spec_from_content` from the source.  `doc_id` is accepted (as in
the source) but unused; page dicts contribute their `content` blocks in
order. -/
def generate_spec_from_content (doc_id : String) (page_count : Int)
    (page_contents : List Page) : SpecNode :=
  let _ := doc_id
  let children := page_contents.flatMap (fun page => page.content.filterMap buildBlock)
  let children := if children.isEmpty then [fallbackParagraph page_count] else children
  SpecNode.mk tDocument none none "" [] children

/-! ## The HTML renderer (`spec_to_html`)

Every rendering function returns its output string *and* the tree it walked
(state passing): the source only ever reads node fields, and the threading
makes that provable (theorem `c9_renderers_read_only`). -/

/-- Function `html_escape` from the source. -/
def html_escape (text : String) : String :=
  if text = "" then ""
  else String.mk (pyReplace (pyReplace (pyReplace (pyReplace (pyReplace text.data
    ['&'] "&amp;".data) ['<'] "&lt;".data) ['>'] "&gt;".data)
    ['"'] "&quot;".data) ['\x27'] "&#x27;".data)

/-- Function `render_marks` from the source: wrap the escaped text once per mark, in
the order the marks appear in the node's `marks` list. -/
def render_marks (text : String) (marks : List String) : String :=
  if marks.isEmpty then html_escape text
  else marks.foldl (fun result mark =>
    if mark = "bold" || mark = "strong" then "<strong>" ++ result ++ "</strong>"
    else if mark = "italic" || mark = "em" then "<em>" ++ result ++ "</em>"
    else if mark = "underline" then "<u>" ++ result ++ "</u>"
    else result) (html_escape text)

mutual

/-- Function `render_node` from the source (dispatch by type-tag suffix, in source
order; unknown types fall through to their children). -/
def render_node : SpecNode → String × SpecNode
  | .mk t lvl ord tx mks cs =>
    if strEndsWith t "/Text" then
      (render_marks tx mks, .mk t lvl ord tx mks cs)
    else if strEndsWith t "/Heading" then
      let level := lvl.getD 20
      let h_level := min 6 (max 1 (Int.fdiv level 10))  -- convert 10->1, 20->2, etc
      let p := render_children cs
      ("<h" ++ toString h_level ++ ">" ++ p.1 ++ "</h" ++ toString h_level ++ ">\n",
       .mk t lvl ord tx mks p.2)
    else if strEndsWith t "/Paragraph" then
      let p := render_children cs
      ("<p>" ++ p.1 ++ "</p>\n", .mk t lvl ord tx mks p.2)
    else if strEndsWith t "/BulletList" then
      let p := render_children cs
      ("<ul>\n" ++ p.1 ++ "</ul>\n", .mk t lvl ord tx mks p.2)
    else if strEndsWith t "/OrderedList" then
      let p := render_children cs
      ("<ol>\n" ++ p.1 ++ "</ol>\n", .mk t lvl ord tx mks p.2)
    else if strEndsWith t "/ListItem" then
      let p := render_children cs
      ("<li>" ++ p.1 ++ "</li>\n", .mk t lvl ord tx mks p.2)
    else if strEndsWith t "/Table" then
      let p := render_children cs
      ("<table>\n" ++ p.1 ++ "</table>\n", .mk t lvl ord tx mks p.2)
    else if strEndsWith t "/TableHeaderRow" then
      let p := render_th_cells cs
      ("<tr>" ++ p.1 ++ "</tr>\n", .mk t lvl ord tx mks p.2)
    else if strEndsWith t "/TableRow" then
      let p := render_td_cells cs
      ("<tr>" ++ p.1 ++ "</tr>\n", .mk t lvl ord tx mks p.2)
    else if strEndsWith t "/TableCell" then
      let p := render_children cs
      (p.1, .mk t lvl ord tx mks p.2)
    else if strEndsWith t "/Document" then
      let p := render_children cs
      (p.1, .mk t lvl ord tx mks p.2)
    else if !cs.isEmpty then
      let p := render_children cs
      (p.1, .mk t lvl ord tx mks p.2)
    else ("", .mk t lvl ord tx mks cs)

/-- Function `render_children` from the source: concatenate the children's renderings. -/
def render_children : List SpecNode → String × List SpecNode
  | [] => ("", [])
  | c :: rest =>
    let a := render_node c
    let b := render_children rest
    (a.1 ++ b.1, a.2 :: b.2)

/-- The TableHeaderRow branch's cell loop: each child's children rendered
inside `<th>…</th>`. -/
def render_th_cells : List SpecNode → String × List SpecNode
  | [] => ("", [])
  | .mk t lvl ord tx mks gcs :: rest =>
    let inner := render_children gcs
    let b := render_th_cells rest
    ("<th>" ++ inner.1 ++ "</th>" ++ b.1, .mk t lvl ord tx mks inner.2 :: b.2)

/-- The TableRow branch's cell loop (`<td>` cells). -/
def render_td_cells : List SpecNode → String × List SpecNode
  | [] => ("", [])
  | .mk t lvl ord tx mks gcs :: rest =>
    let inner := render_children gcs
    let b := render_td_cells rest
    ("<td>" ++ inner.1 ++ "</td>" ++ b.1, .mk t lvl ord tx mks inner.2 :: b.2)

end

/-- The fixed HTML document shell before the body (braces and apostrophes of
the inline stylesheet written as `\x7b`, `\x7d`, `\x27`). -/
def html_shell_head : String :=
  "<!DOCTYPE html>\n<html lang=\"nl\">\n<head>\n    <meta charset=\"UTF-8\">\n    <meta name=\"viewport\" content=\"width=device-width, initial-scale=1.0\">\n    <title>Geconverteerd Document</title>\n    <style>\n        body \x7b font-family: -apple-system, BlinkMacSystemFont, \x27Segoe UI\x27, Roboto, Oxygen, Ubuntu, sans-serif; line-height: 1.6; max-width: 800px; margin: 0 auto; padding: 2rem; color: #333; \x7d\n        h1, h2, h3, h4, h5, h6 \x7b margin-top: 1.5em; margin-bottom: 0.5em; color: #1a1a1a; \x7d\n        h1 \x7b font-size: 2rem; border-bottom: 2px solid #eee; padding-bottom: 0.3em; \x7d\n        h2 \x7b font-size: 1.5rem; border-bottom: 1px solid #eee; padding-bottom: 0.2em; \x7d\n        h3 \x7b font-size: 1.25rem; \x7d\n        p \x7b margin: 1em 0; \x7d\n        ul, ol \x7b margin: 1em 0; padding-left: 2em; \x7d\n        li \x7b margin: 0.3em 0; \x7d\n        table \x7b border-collapse: collapse; width: 100%; margin: 1em 0; \x7d\n        th, td \x7b border: 1px solid #ddd; padding: 0.75em; text-align: left; \x7d\n        th \x7b background-color: #f5f5f5; font-weight: bold; \x7d\n        tr:nth-child(even) \x7b background-color: #fafafa; \x7d\n        strong \x7b font-weight: bold; \x7d\n        em \x7b font-style: italic; \x7d\n        u \x7b text-decoration: underline; \x7d\n    </style>\n</head>\n<body>\n"

/-- The fixed HTML document shell after the body. -/
def html_shell_tail : String := "\n</body>\n</html>"

/-- Function `spec_to_html` from the source: the rendered body embedded in the static
shell (returned together with the threaded tree). -/
def spec_to_html (spec : SpecNode) : String × SpecNode :=
  let p := render_node spec
  (html_shell_head ++ p.1 ++ html_shell_tail, p.2)

/-! ## The TipTap renderer (`spec_to_tiptap`)

A `TNode` models one TipTap JSON node `{type, attrs?, content?, text?,
marks?}`: `attrLevel` is the only attr used (`attrs["level"]` of headings),
`none` encodes an absent key.  As with the HTML renderer, every function
returns its result together with the threaded tree. -/

inductive TNode : Type where
  | mk (ttype : String) (attrLevel : Option Int) (content : Option (List TNode))
       (text : Option String) (marks : Option (List String)) : TNode

/-- The TipTap empty text node used as default content. -/
def tiptapEmptyText : TNode := TNode.mk "text" none none (some "") none

/-- The TipTap empty paragraph used as default cell content. -/
def tiptapEmptyParagraph : TNode :=
  TNode.mk "paragraph" none (some [tiptapEmptyText]) none none

/-- Function `marks_to_tiptap` from the source: map mark tags 1:1, drop unknown tags,
collapse an empty result to `None`. -/
def marks_to_tiptap (marks : List String) : Option (List String) :=
  if marks.isEmpty then none
  else
    let out := marks.filterMap (fun t =>
      if t = "bold" || t = "strong" then some "bold"
      else if t = "italic" || t = "em" then some "italic"
      else if t = "underline" then some "underline"
      else none)
    if out.isEmpty then none else some out

/-- Function `render_inline` from the source: keep the Text children as TipTap text
nodes (with mapped marks); non-Text children contribute nothing.  Reads
only. -/
def render_inline (children : List SpecNode) : List TNode :=
  children.filterMap (fun c =>
    if strEndsWith c.ntypeOf "/Text" then
      some (TNode.mk "text" none none (some c.textOf) (marks_to_tiptap c.marksOf))
    else none)

mutual

/-- Function `render_block` from the source: one NLdoc node to one optional TipTap
node (`none` for unknown/unsupported types, skipped by the parent). -/
def render_block : SpecNode → Option TNode × SpecNode
  | .mk t lvl ord tx mks cs =>
    if strEndsWith t "/Heading" then
      -- int(node.get("level", 20) // 10); the isinstance(level, int) guard
      -- cannot fail in this typed model
      let level := Int.fdiv (lvl.getD 20) 10
      let level := max 1 (min 6 level)
      let inl := render_inline cs
      (some (TNode.mk "heading" (some level)
          (some (if inl.isEmpty then [tiptapEmptyText] else inl)) none none),
       .mk t lvl ord tx mks cs)
    else if strEndsWith t "/Paragraph" then
      let inl := render_inline cs
      (some (TNode.mk "paragraph" none
          (some (if inl.isEmpty then [tiptapEmptyText] else inl)) none none),
       .mk t lvl ord tx mks cs)
    else if strEndsWith t "/BulletList" then
      let p := render_block_list cs
      (some (TNode.mk "bulletList" none (some p.1) none none), .mk t lvl ord tx mks p.2)
    else if strEndsWith t "/OrderedList" then
      let p := render_block_list cs
      (some (TNode.mk "orderedList" none (some p.1) none none), .mk t lvl ord tx mks p.2)
    else if strEndsWith t "/ListItem" then
      let p := render_block_list cs
      (some (TNode.mk "listItem" none (some p.1) none none), .mk t lvl ord tx mks p.2)
    else if strEndsWith t "/Table" then
      let p := render_table_rows cs
      (some (TNode.mk "table" none (some p.1) none none), .mk t lvl ord tx mks p.2)
    else (none, .mk t lvl ord tx mks cs)

/-- The filtered list comprehension `[render_block(c) for c in children if
render_block(c)]` (the source's double call is harmless: `render_block` is
deterministic and mutates nothing, as proved below). -/
def render_block_list : List SpecNode → List TNode × List SpecNode
  | [] => ([], [])
  | c :: rest =>
    let a := render_block c
    let b := render_block_list rest
    ((match a.1 with | some tb => tb :: b.1 | none => b.1), a.2 :: b.2)

/-- The Table branch's row loop: TableHeaderRow/TableRow children become
`tableRow` nodes (with `tableHeader`/`tableCell` cells); other children are
skipped. -/
def render_table_rows : List SpecNode → List TNode × List SpecNode
  | [] => ([], [])
  | .mk t lvl ord tx mks gcs :: rest =>
    let b := render_table_rows rest
    if strEndsWith t "/TableHeaderRow" then
      let p := render_row_cells true gcs
      (TNode.mk "tableRow" none (some p.1) none none :: b.1,
       .mk t lvl ord tx mks p.2 :: b.2)
    else if strEndsWith t "/TableRow" then
      let p := render_row_cells false gcs
      (TNode.mk "tableRow" none (some p.1) none none :: b.1,
       .mk t lvl ord tx mks p.2 :: b.2)
    else
      (b.1, .mk t lvl ord tx mks gcs :: b.2)

/-- The cell loop of a (header or regular) row: each cell's children are
rendered through `render_block` and wrapped in a `tableHeader`/`tableCell`
node, defaulting to one empty paragraph. -/
def render_row_cells : Bool → List SpecNode → List TNode × List SpecNode
  | _, [] => ([], [])
  | isHeader, .mk t lvl ord tx mks gcs :: rest =>
    let p := render_cell_paras gcs
    let b := render_row_cells isHeader rest
    (TNode.mk (if isHeader then "tableHeader" else "tableCell") none
        (some (if p.1.isEmpty then [tiptapEmptyParagraph] else p.1)) none none :: b.1,
     .mk t lvl ord tx mks p.2 :: b.2)

/-- The cell-paragraph comprehension `[render_block(p) for p in
cell.get("children", []) if render_block(p)]`. -/
def render_cell_paras : List SpecNode → List TNode × List SpecNode
  | [] => ([], [])
  | c :: rest =>
    let a := render_block c
    let b := render_cell_paras rest
    ((match a.1 with | some tb => tb :: b.1 | none => b.1), a.2 :: b.2)

end

/-- Function `spec_to_tiptap` from the source: a `doc` node containing the rendered
children of the Document root (an input whose type is not `/Document` yields
an empty `doc`). -/
def spec_to_tiptap : SpecNode → TNode × SpecNode
  | .mk t lvl ord tx mks cs =>
    if strEndsWith t "/Document" then
      let p := render_block_list cs
      (TNode.mk "doc" none (some p.1) none none, .mk t lvl ord tx mks p.2)
    else (TNode.mk "doc" none (some []) none none, .mk t lvl ord tx mks cs)

/-! ## Structural invariant checker (for the builder-output invariants) -/

/-- Does a children list contain at least one Text node? -/
def hasTextChild : List SpecNode → Bool
  | [] => false
  | c :: cs => (SpecNode.ntypeOf c == tText) || hasTextChild cs

mutual

/-- Every Heading and Paragraph node in the tree (at any depth) has at least
one Text child. -/
def nodeOk : SpecNode → Bool
  | .mk t _ _ _ _ cs =>
    (if t = tHeading || t = tParagraph then hasTextChild cs else true) && forestOk cs

def forestOk : List SpecNode → Bool
  | [] => true
  | c :: cs => nodeOk c && forestOk cs

end

theorem forestOk_append {l1 l2 : List SpecNode} (h1 : forestOk l1 = true)
    (h2 : forestOk l2 = true) : forestOk (l1 ++ l2) = true := by
  induction l1 with
  | nil => simpa using h2
  | cons c cs ih =>
    rw [forestOk, Bool.and_eq_true] at h1
    rw [List.cons_append, forestOk, Bool.and_eq_true]
    exact ⟨h1.1, ih h1.2⟩

/-! ## Helper lemmas for fold-based reformulations -/

theorem foldl_max_eq_map_foldl (spans : List Span) :
    spans.foldl (fun acc sp => max acc sp.size) (0 : ℚ)
      = (spans.map Span.size).foldl max 0 := by
  rw [List.foldl_map]

theorem foldl_or_eq_any (f : Span → Bool) :
    ∀ (l : List Span) (b : Bool), l.foldl (fun acc sp => acc || f sp) b = (b || l.any f) := by
  intro l
  induction l with
  | nil => intro b; simp
  | cons x xs ih =>
    intro b
    rw [List.foldl_cons, ih (b || f x), List.any_cons]
    cases b <;> cases f x <;> simp

theorem foldl_append_data : ∀ (l : List String) (a : String),
    (l.foldl (· ++ ·) a).data = a.data ++ (l.map String.data).flatten := by
  intro l
  induction l with
  | nil => intro a; simp
  | cons x xs ih =>
    intro a
    rw [List.foldl_cons, ih (a ++ x), List.map_cons, List.flatten_cons,
      String.data_append, List.append_assoc]

theorem foldl_append_eq_join (l : List Span) :
    l.foldl (fun acc sp => acc ++ sp.text) "" = String.join (l.map Span.text) := by
  have h1 : l.foldl (fun acc sp => acc ++ sp.text) ""
      = (l.map Span.text).foldl (· ++ ·) "" := by
    rw [List.foldl_map]
  rw [h1]
  apply String.ext
  rw [String.join, foldl_append_data]

/-! ## Claim theorems -/

/-- C5: PDF line classification.  For every extracted line, with `S` the
maximum font size over its spans and `B` true iff any span's font name
contains "bold", the line becomes a level-1 heading block if `S ≥ 18`, a
level-2 heading block if `S ≥ 16` or `B` (and `S < 18`), and otherwise a
paragraph block; lines whose merged text is empty after stripping produce no
block; the text passes through `fix_encoding` before classification. -/
theorem c5_pdf_line_classification (spans : List Span) :
    extract_line spans =
      (let S := (spans.map Span.size).foldl max (0 : ℚ)
       let B := spans.any (fun sp => strContains (strLower sp.font) "bold")
       let t := pyStrip (String.join (spans.map Span.text))
       if t = "" then none
       else if S ≥ 18 then
         some { btype := "heading", level := 1, text := fix_encoding t,
                children := [], rows := [], items := [] }
       else if S ≥ 16 ∨ B = true then
         some { btype := "heading", level := 2, text := fix_encoding t,
                children := [], rows := [], items := [] }
       else
         some { btype := "paragraph", level := 2, text := fix_encoding t,
                children := [], rows := [], items := [] }) := by
  simp only [extract_line, foldl_max_eq_map_foldl, foldl_or_eq_any, Bool.false_or,
    foldl_append_eq_join]
  set S := (spans.map Span.size).foldl max (0 : ℚ) with hS
  set B := spans.any (fun sp => strContains (strLower sp.font) "bold") with hB
  set t := pyStrip (String.join (spans.map Span.text)) with ht
  by_cases hempty : t = ""
  · simp [hempty]
  · simp only [hempty, if_false]
    rcases le_or_lt 18 S with h18 | h18
    · have h16 : (16 : ℚ) ≤ S := le_trans (by norm_num) h18
      simp [ge_iff_le, h16, h18]
    · by_cases hc : (16 : ℚ) ≤ S ∨ B = true
      · have hcond : (decide (S ≥ 16) || B) = true := by
          rcases hc with hc | hc
          · simp [ge_iff_le, hc]
          · simp [hc]
        simp [ge_iff_le, hcond, not_le.mpr h18, hc]
      · push_neg at hc
        have hBf : B = false := Bool.not_eq_true B ▸ hc.2
        have hcond : (decide (S ≥ 16) || B) = false := by
          simp [ge_iff_le, not_le.mpr hc.1, hBf]
        simp [hcond, ge_iff_le, not_le.mpr hc.1, hBf, not_le.mpr h18]

/-- C6: for every page-contents input whose blocks all contribute nothing
(in particular an empty input), the Spec Builder returns a Document with
exactly one child, a Paragraph whose single Text child's text mentions the
supplied page count. -/
theorem c6_empty_extraction_fallback (doc_id : String) (page_count : Int)
    (page_contents : List Page)
    (h : ∀ pg ∈ page_contents, ∀ b ∈ pg.content, buildBlock b = none) :
    generate_spec_from_content doc_id page_count page_contents
      = SpecNode.mk tDocument none none "" []
          [SpecNode.mk tParagraph none none "" [] [mkText (fallback_text page_count) []]]
    ∧ strContains (fallback_text page_count) (toString page_count) = true := by
  constructor
  · have hfm : ∀ (l : List Block), (∀ b ∈ l, buildBlock b = none)
        → l.filterMap buildBlock = [] := by
      intro l
      induction l with
      | nil => intro _; rfl
      | cons b bs ihb =>
        intro hall
        rw [List.filterMap_cons, hall b (List.mem_cons_self _ _)]
        exact ihb (fun b' hb' => hall b' (List.mem_cons_of_mem _ hb'))
    have hnil : page_contents.flatMap (fun page => page.content.filterMap buildBlock) = [] := by
      induction page_contents with
      | nil => rfl
      | cons pg rest ih =>
        rw [List.flatMap_cons, hfm pg.content (h pg (List.mem_cons_self _ _)), List.nil_append]
        exact ih (fun pg' hpg' => h pg' (List.mem_cons_of_mem _ hpg'))
    simp [generate_spec_from_content, hnil, fallbackParagraph]
  · show containsSub (toString page_count).data (fallback_text page_count).data = true
    have hdata : (fallback_text page_count).data
        = "Dit document bevat ".data ++ (toString page_count).data
          ++ " pagina\x27s maar de tekst kon niet worden geëxtraheerd.".data := by
      simp [fallback_text, String.data_append]
    rw [hdata]
    exact containsSub_append_self _ _ _

/-- A page whose single block has an unknown type (used by the C6 witness). -/
def unknownBlockPage : Page :=
  { page_number := 1,
    content := [{ btype := "weird", text := "x", level := 2,
                  children := [], rows := [], items := [] }] }

/-- Witness for C6 at a concrete input: one page whose single block has an
unknown type (and so contributes nothing), page count 7. -/
theorem c6_empty_extraction_fallback_witness :
    (∀ pg ∈ [unknownBlockPage], ∀ b ∈ pg.content, buildBlock b = none)
    ∧ (generate_spec_from_content "doc" 7 [unknownBlockPage]
         = SpecNode.mk tDocument none none "" []
             [SpecNode.mk tParagraph none none "" [] [mkText (fallback_text 7) []]]
       ∧ strContains (fallback_text 7) (toString (7 : Int)) = true) := by
  have hyp : ∀ pg ∈ [unknownBlockPage], ∀ b ∈ pg.content, buildBlock b = none := by
    intro pg hpg b hb
    rw [List.mem_singleton] at hpg
    subst hpg
    rw [unknownBlockPage] at hb
    rw [List.mem_singleton] at hb
    subst hb
    rfl
  exact ⟨hyp, c6_empty_extraction_fallback "doc" 7 _ hyp⟩

/-- C7 (amended): for every heading block whose source level `L` is at least
1, the builder's Heading level is `min L 6 × 10`, a multiple of 10 in
[10, 60].  (For `L ≤ 0` the produced level is `L × 10 ≤ 0`, see the
counterexample.) -/
theorem c7_heading_level_multiple_of_ten (L : Int) (h1 : 1 ≤ L) (txt : String)
    (tcs : List RunNode) :
    let b : Block := { btype := "heading", level := L, text := txt,
                       children := tcs, rows := [], items := [] }
    let spec_children := if tcs.isEmpty then [mkText (pyStrip txt) []]
                         else convert_text_children_to_spec tcs
    let lvl : Int := if L ≤ 6 then L * 10 else 60
    buildBlock b = some (SpecNode.mk tHeading (some lvl) none "" [] spec_children)
    ∧ lvl = min L 6 * 10 ∧ 10 ≤ lvl ∧ lvl ≤ 60 ∧ lvl % 10 = 0 := by
  refine ⟨rfl, ?_, ?_, ?_, ?_⟩ <;> split_ifs with h6 <;> omega

/-- Witness for C7 at `L = 9` (clamped to 60). -/
theorem c7_heading_level_multiple_of_ten_witness :
    (1 : Int) ≤ 9 ∧
    (buildBlock { btype := "heading", level := 9, text := "Big",
                  children := [], rows := [], items := [] }
       = some (SpecNode.mk tHeading (some (if (9 : Int) ≤ 6 then 9 * 10 else 60)) none "" []
           (if ([] : List RunNode).isEmpty then [mkText (pyStrip "Big") []]
            else convert_text_children_to_spec []))
     ∧ (if (9 : Int) ≤ 6 then (9 : Int) * 10 else 60) = min 9 6 * 10
     ∧ (10 : Int) ≤ (if (9 : Int) ≤ 6 then 9 * 10 else 60)
     ∧ (if (9 : Int) ≤ 6 then (9 : Int) * 10 else 60) ≤ 60
     ∧ (if (9 : Int) ≤ 6 then (9 : Int) * 10 else 60) % 10 = 0) :=
  ⟨by decide, c7_heading_level_multiple_of_ten 9 (by decide) "Big" []⟩

/-- Counterexample for C7 as frozen: a heading block with source level 0 (as
a DOCX style named e.g. "kop 0" produces) yields a Heading node whose level
is 0, not the claimed `clamp(0,1,6) × 10 = 10`, and not in [10, 60]. -/
theorem c7_heading_level_counterexample :
    buildBlock { btype := "heading", level := 0, text := "X",
                 children := [], rows := [], items := [] }
      = some (SpecNode.mk tHeading (some 0) none "" [] [mkText "X" []])
    ∧ (0 : Int) ≠ max 1 (min 0 6) * 10
    ∧ ¬ (10 ≤ (0 : Int) ∧ (0 : Int) ≤ 60 ∧ (0 : Int) = max 1 (min 0 6) * 10) :=
  ⟨rfl, by decide, by decide⟩

/-- Rows built at a nonzero index are all TableRow nodes whose children are
the row's cells. -/
theorem buildTableRows_of_ne_zero :
    ∀ (rest : List (List String)) (idx : Nat), idx ≠ 0 →
      buildTableRows idx rest
        = rest.map (fun row => SpecNode.mk tTableRow none none "" [] (row.map buildTableCell)) := by
  intro rest
  induction rest with
  | nil => intro idx _; rfl
  | cons row rest ih =>
    intro idx hidx
    rw [buildTableRows, if_neg hidx, List.map_cons, ih (idx + 1) (Nat.succ_ne_zero idx)]

/-- C8: a table block with `R ≥ 1` rows, each of `C` cells, produces a Table
node with exactly `R` row children — the first a TableHeaderRow, the rest
TableRows — where each row child holds exactly its row's `C` cells, each a
TableCell wrapping a Paragraph wrapping a Text with the cell's text
(`buildTableCell`). -/
theorem c8_table_structure (rows : List (List String)) (C : Nat)
    (hne : rows ≠ []) (hC : ∀ r ∈ rows, r.length = C) :
    let b : Block := { btype := "table", text := "", level := 2,
                       children := [], rows := rows, items := [] }
    buildBlock b = some (SpecNode.mk tTable none none "" [] (buildTableRows 0 rows))
    ∧ (buildTableRows 0 rows).length = rows.length
    ∧ ((buildTableRows 0 rows).head?.map SpecNode.ntypeOf = some tTableHeaderRow)
    ∧ (∀ rn ∈ (buildTableRows 0 rows).tail, SpecNode.ntypeOf rn = tTableRow)
    ∧ List.Forall₂
        (fun rn row => SpecNode.childrenOf rn = row.map buildTableCell
          ∧ (SpecNode.childrenOf rn).length = C)
        (buildTableRows 0 rows) rows := by
  match rows, hne with
  | r0 :: rest, _ =>
    have hhead : buildTableRows 0 (r0 :: rest)
        = SpecNode.mk tTableHeaderRow none none "" [] (r0.map buildTableCell)
          :: rest.map (fun row => SpecNode.mk tTableRow none none "" [] (row.map buildTableCell)) := by
      rw [buildTableRows, if_pos rfl, buildTableRows_of_ne_zero rest 1 (Nat.one_ne_zero)]
    refine ⟨?_, ?_, ?_, ?_, ?_⟩
    · show buildBlock _ = _
      simp only [buildBlock, hhead]
      rfl
    · rw [hhead]; simp
    · rw [hhead]; rfl
    · rw [hhead]
      intro rn hrn
      simp only [List.tail_cons, List.mem_map] at hrn
      obtain ⟨row, _, rfl⟩ := hrn
      rfl
    · rw [hhead]
      refine List.Forall₂.cons ⟨rfl, ?_⟩ ?_
      · show (r0.map buildTableCell).length = C
        rw [List.length_map]
        exact hC r0 (List.mem_cons_self _ _)
      · have : ∀ (rest' : List (List String)), (∀ r ∈ rest', r.length = C) →
            List.Forall₂
              (fun rn row => SpecNode.childrenOf rn = row.map buildTableCell
                ∧ (SpecNode.childrenOf rn).length = C)
              (rest'.map (fun row => SpecNode.mk tTableRow none none "" [] (row.map buildTableCell)))
              rest' := by
          intro rest'
          induction rest' with
          | nil => intro _; exact List.Forall₂.nil
          | cons r rs ih =>
            intro hall
            refine List.Forall₂.cons ⟨rfl, ?_⟩ (ih (fun r' hr' => hall r' (List.mem_cons_of_mem _ hr')))
            show (r.map buildTableCell).length = C
            rw [List.length_map]
            exact hall r (List.mem_cons_self _ _)
        exact this rest (fun r hr => hC r (List.mem_cons_of_mem _ hr))

/-- Witness for C8 at a concrete 2×2 table. -/
theorem c8_table_structure_witness :
    ([["a", "b"], ["c", "d"]] : List (List String)) ≠ []
    ∧ (∀ r ∈ ([["a", "b"], ["c", "d"]] : List (List String)), r.length = 2)
    ∧ (buildBlock { btype := "table", text := "", level := 2, children := [],
                    rows := [["a", "b"], ["c", "d"]], items := [] }
         = some (SpecNode.mk tTable none none "" [] (buildTableRows 0 [["a", "b"], ["c", "d"]]))
       ∧ (buildTableRows 0 [["a", "b"], ["c", "d"]]).length
           = ([["a", "b"], ["c", "d"]] : List (List String)).length
       ∧ ((buildTableRows 0 [["a", "b"], ["c", "d"]]).head?.map SpecNode.ntypeOf
           = some tTableHeaderRow)
       ∧ (∀ rn ∈ (buildTableRows 0 [["a", "b"], ["c", "d"]]).tail,
            SpecNode.ntypeOf rn = tTableRow)
       ∧ List.Forall₂
           (fun rn row => SpecNode.childrenOf rn = row.map buildTableCell
             ∧ (SpecNode.childrenOf rn).length = 2)
           (buildTableRows 0 [["a", "b"], ["c", "d"]]) [["a", "b"], ["c", "d"]]) :=
  ⟨by decide, by decide, c8_table_structure [["a", "b"], ["c", "d"]] 2 (by decide) (by decide)⟩

/-- C1: for every heading whose source level `L` is in [1, 6], the Spec
Builder sets the canonical Heading level to `L × 10`, the HTML renderer emits
that node with tag `h{L}`, and the TipTap renderer emits a heading node with
`attrs.level = L`. -/
theorem c1_heading_level_roundtrip (L : Int) (h1 : 1 ≤ L) (h6 : L ≤ 6)
    (txt : String) (tcs : List RunNode) :
    let b : Block := { btype := "heading", level := L, text := txt,
                       children := tcs, rows := [], items := [] }
    let spec_children := if tcs.isEmpty then [mkText (pyStrip txt) []]
                         else convert_text_children_to_spec tcs
    let hnode := SpecNode.mk tHeading (some (L * 10)) none "" [] spec_children
    buildBlock b = some hnode
    ∧ (render_node hnode).1
        = "<h" ++ toString L ++ ">" ++ (render_children spec_children).1
          ++ "</h" ++ toString L ++ ">\n"
    ∧ (render_block hnode).1
        = some (TNode.mk "heading" (some L)
            (some (if (render_inline spec_children).isEmpty then [tiptapEmptyText]
                   else render_inline spec_children)) none none) := by
  have hfdiv : Int.fdiv (L * 10) 10 = L := Int.mul_fdiv_cancel L (by norm_num)
  refine ⟨?_, ?_, ?_⟩
  · show buildBlock _ = _
    simp only [buildBlock]
    rw [if_pos trivial, if_pos h6]
  · show (render_node _).1 = _
    rw [render_node]
    rw [if_neg (by decide), if_pos (by decide)]
    simp only [Option.getD_some, hfdiv]
    have hclamp : min 6 (max 1 L) = L := by omega
    rw [hclamp]
  · show (render_block _).1 = _
    rw [render_block]
    rw [if_pos (by decide)]
    simp only [Option.getD_some, hfdiv]
    have hclamp : max 1 (min 6 L) = L := by omega
    rw [hclamp]

/-- Witness for C1 at `L = 3` with a bold run child. -/
theorem c1_heading_level_roundtrip_witness :
    (1 : Int) ≤ 3 ∧ (3 : Int) ≤ 6 ∧
    (buildBlock { btype := "heading", level := 3, text := "Hi",
                  children := [{ rtype := "text", text := "Hi", marks := ["bold"] }],
                  rows := [], items := [] }
       = some (SpecNode.mk tHeading (some (3 * 10)) none "" []
           (if ([{ rtype := "text", text := "Hi", marks := ["bold"] }] : List RunNode).isEmpty
            then [mkText (pyStrip "Hi") []]
            else convert_text_children_to_spec [{ rtype := "text", text := "Hi", marks := ["bold"] }]))
     ∧ (render_node (SpecNode.mk tHeading (some (3 * 10)) none "" []
           (if ([{ rtype := "text", text := "Hi", marks := ["bold"] }] : List RunNode).isEmpty
            then [mkText (pyStrip "Hi") []]
            else convert_text_children_to_spec [{ rtype := "text", text := "Hi", marks := ["bold"] }]))).1
         = "<h" ++ toString (3 : Int) ++ ">"
           ++ (render_children (if ([{ rtype := "text", text := "Hi", marks := ["bold"] }] : List RunNode).isEmpty
                then [mkText (pyStrip "Hi") []]
                else convert_text_children_to_spec [{ rtype := "text", text := "Hi", marks := ["bold"] }])).1
           ++ "</h" ++ toString (3 : Int) ++ ">\n"
     ∧ (render_block (SpecNode.mk tHeading (some (3 * 10)) none "" []
           (if ([{ rtype := "text", text := "Hi", marks := ["bold"] }] : List RunNode).isEmpty
            then [mkText (pyStrip "Hi") []]
            else convert_text_children_to_spec [{ rtype := "text", text := "Hi", marks := ["bold"] }]))).1
         = some (TNode.mk "heading" (some 3)
             (some (if (render_inline (if ([{ rtype := "text", text := "Hi", marks := ["bold"] }] : List RunNode).isEmpty
                        then [mkText (pyStrip "Hi") []]
                        else convert_text_children_to_spec [{ rtype := "text", text := "Hi", marks := ["bold"] }])).isEmpty
                    then [tiptapEmptyText]
                    else render_inline (if ([{ rtype := "text", text := "Hi", marks := ["bold"] }] : List RunNode).isEmpty
                        then [mkText (pyStrip "Hi") []]
                        else convert_text_children_to_spec [{ rtype := "text", text := "Hi", marks := ["bold"] }]))) none none)) :=
  ⟨by decide, by decide,
   c1_heading_level_roundtrip 3 (by decide) (by decide) "Hi"
     [{ rtype := "text", text := "Hi", marks := ["bold"] }]⟩

/-- A digit character is not a bullet glyph. -/
theorem digit_not_bulletGlyph {c : Char} (h : c.isDigit = true) : c ∉ bulletGlyphs := by
  intro hmem
  have hc : c = '•' ∨ c = '●' ∨ c = '○' ∨ c = '▪' ∨ c = '-' ∨ c = '*' := by
    simpa [bulletGlyphs] using hmem
  rcases hc with rfl | rfl | rfl | rfl | rfl | rfl <;> simp [Char.isDigit] at h

/-- C3 (amended): in the text-prefix fallback of `get_list_info` (no
numbering properties, style name without "list"), a stripped text starting
with one of the glyphs `•,●,○,▪,-,*` is detected as an unordered list item,
and a text of length at least 3 whose FIRST character is a digit and whose
SECOND character is `.`, `)` or `:` is detected as an ordered list item.
(Multi-digit prefixes such as `"12."` are NOT detected — only the first
character may be a digit; see the counterexample.) -/
theorem c3_text_prefix_list_detection (p : Para) (hnum : p.numPr = none)
    (hstyle : strContains (strLower p.styleName) "list" = false) :
    (∀ c0 rest, (pyStrip p.text).data = c0 :: rest → c0 ∈ bulletGlyphs →
        get_list_info p = ListInfo.list 0 false (-1))
    ∧ (∀ c0 c1 c2 rest, (pyStrip p.text).data = c0 :: c1 :: c2 :: rest →
        c0.isDigit = true → (c1 = '.' ∨ c1 = ')' ∨ c1 = ':') →
        get_list_info p = ListInfo.list 0 true (-2)) := by
  constructor
  · intro c0 rest hdata hglyph
    rw [get_list_info, hnum]
    simp only [hstyle, Bool.false_eq_true, if_false]
    rw [hdata]
    dsimp only
    rw [if_pos hglyph]
  · intro c0 c1 c2 rest hdata hdigit hpunct
    rw [get_list_info, hnum]
    simp only [hstyle, Bool.false_eq_true, if_false]
    rw [hdata]
    dsimp only
    rw [if_neg (digit_not_bulletGlyph hdigit)]
    rw [if_pos (by simp [hdigit]; tauto)]

/-- Witness for C3 at the concrete texts `"- foo"` (bullet) and `"3) x"`
(single-digit ordered), style `"Normal"`, no numbering properties. -/
theorem c3_text_prefix_list_detection_witness :
    (Para.mk none "Normal" "3) x").numPr = none
    ∧ strContains (strLower (Para.mk none "Normal" "3) x").styleName) "list" = false
    ∧ (pyStrip (Para.mk none "Normal" "3) x").text).data = '3' :: ')' :: ' ' :: ['x']
    ∧ ('3' : Char).isDigit = true
    ∧ get_list_info (Para.mk none "Normal" "3) x") = ListInfo.list 0 true (-2) :=
  ⟨rfl, by decide, by decide, by decide,
   (c3_text_prefix_list_detection (Para.mk none "Normal" "3) x") rfl (by decide)).2
     '3' ')' ' ' ['x'] (by decide) (by decide) (Or.inr (Or.inl rfl))⟩

/-- Counterexample for C3 as frozen: the multi-digit prefix `"12. foo"`
(digits then `.`) is claimed to be detected as an ordered list item, but
`get_list_info` inspects only the first two characters and reports "not a
list". -/
theorem c3_text_prefix_list_detection_counterexample :
    get_list_info (Para.mk none "Normal" "12. foo") = ListInfo.noList
    ∧ ListInfo.noList ≠ ListInfo.list 0 true (-2) := ⟨by decide, by decide⟩

/-- The fixed-order nesting the spec describes: wrap the escaped text in
`<strong>`, then `<em>`, then `<u>`, for exactly the marks present. -/
def fixedMarkWrap (escaped : String) (hasBold hasItalic hasUnderline : Bool) : String :=
  let s1 := if hasBold then "<strong>" ++ escaped ++ "</strong>" else escaped
  let s2 := if hasItalic then "<em>" ++ s1 ++ "</em>" else s1
  if hasUnderline then "<u>" ++ s2 ++ "</u>" else s2

/-- C4 (amended): `render_marks` wraps in the order the marks were recorded
(the last recorded mark is outermost).  When the marks are recorded in the
canonical order bold → italic → underline — as `extract_runs_with_formatting`
always records them (second conjunct) — the output is the HTML-escaped text
wrapped in `<strong>`, then `<em>`, then `<u>` for exactly the marks present.
For marks recorded in any other order the nesting differs (see the
counterexample). -/
theorem c4_marks_fixed_order (text : String) (marks : List String)
    (h : marks.Sublist ["bold", "italic", "underline"]) :
    render_marks text marks
      = fixedMarkWrap (html_escape text) (marks.contains "bold")
          (marks.contains "italic") (marks.contains "underline")
    ∧ ∀ (runs : List DocxRun) (ptxt : String),
        ∀ rn ∈ extract_runs_with_formatting runs ptxt,
          rn.marks.Sublist ["bold", "italic", "underline"] := by
  constructor
  · have hmem : marks ∈ (["bold", "italic", "underline"] : List String).sublists :=
      List.mem_sublists.mpr h
    have hsubl : (["bold", "italic", "underline"] : List String).sublists
        = [[], ["bold"], ["italic"], ["bold", "italic"], ["underline"],
           ["bold", "underline"], ["italic", "underline"],
           ["bold", "italic", "underline"]] := by decide
    rw [hsubl] at hmem
    fin_cases hmem <;> simp [render_marks, fixedMarkWrap]
  · intro runs ptxt rn hrn
    simp only [extract_runs_with_formatting] at hrn
    split at hrn
    · rw [List.mem_singleton] at hrn
      subst hrn
      exact List.nil_sublist _
    · split at hrn
      · rw [List.mem_singleton] at hrn
        subst hrn
        exact List.nil_sublist _
      · obtain ⟨run, _, hsome⟩ := List.mem_filterMap.mp hrn
        split at hsome
        · exact absurd hsome (by simp)
        · injection hsome with hEq
          subst hEq
          show ((if run.bold then ["bold"] else []) ++
              (if run.italic then ["italic"] else []) ++
              (if run.underline then ["underline"] else [])).Sublist
            ["bold", "italic", "underline"]
          cases run.bold <;> cases run.italic <;> cases run.underline <;> decide

/-- Witness for C4 at text `"a&b"` and canonical marks `[bold, underline]`. -/
theorem c4_marks_fixed_order_witness :
    (["bold", "underline"] : List String).Sublist ["bold", "italic", "underline"]
    ∧ render_marks "a&b" ["bold", "underline"] = "<u><strong>a&amp;b</strong></u>" :=
  ⟨by decide,
   by
    have h := (c4_marks_fixed_order "a&b" ["bold", "underline"] (by decide)).1
    rw [h]
    decide⟩

/-- Counterexample for C4 as frozen: with marks recorded as
`[underline, bold]`, the code nests `<strong>` outermost (last recorded mark
wraps last), not the claimed fixed order `<u>` outside `<strong>`. -/
theorem c4_marks_fixed_order_counterexample :
    render_marks "x" ["underline", "bold"] = "<strong><u>x</u></strong>"
    ∧ render_marks "x" ["underline", "bold"] ≠ "<u><strong>x</strong></u>" :=
  ⟨rfl, by decide⟩

/-- A string is free of the three mojibake trigger characters `â` (U+00E2),
`Ã` (U+00C3) and `Γ` (U+0393) (every replacement key of `fix_encoding` other
than the zero-width-space and BOM deletions starts with one of them). -/
def noMojibakeTriggers (s : String) : Prop :=
  ∀ c ∈ s.data, c ≠ 'â' ∧ c ≠ 'Ã' ∧ c ≠ 'Γ'

/-- On a trigger-free character list, the first 17 replacement steps are the
identity and `fixEncodingL` reduces to the two deletions. -/
theorem fixEncodingL_of_no_triggers (u : List Char)
    (h : ∀ c ∈ u, c ≠ 'â' ∧ c ≠ 'Ã' ∧ c ≠ 'Γ') :
    fixEncodingL u = pyReplace (pyReplace u ['​'] []) ['﻿'] [] := by
  have hA : 'â' ∉ u := fun hm => ((h _ hm).1 rfl)
  have hC : 'Ã' ∉ u := fun hm => ((h _ hm).2.1 rfl)
  have hG : 'Γ' ∉ u := fun hm => ((h _ hm).2.2 rfl)
  simp only [fixEncodingL]
  rw [show pyReplace u ['â', '€', '"'] ['–'] = u from pyReplace_of_head_not_mem u hA,
    show pyReplace u ['â', '€', '™'] ['\x27'] = u from pyReplace_of_head_not_mem u hA,
    show pyReplace u ['â', '€', 'œ'] ['"'] = u from pyReplace_of_head_not_mem u hA,
    show pyReplace u ['â', '€'] ['"'] = u from pyReplace_of_head_not_mem u hA,
    show pyReplace u ['â', '€', '¦'] ['…'] = u from pyReplace_of_head_not_mem u hA,
    show pyReplace u ['Ã', '©'] ['é'] = u from pyReplace_of_head_not_mem u hC,
    show pyReplace u ['Ã', '¨'] ['è'] = u from pyReplace_of_head_not_mem u hC,
    show pyReplace u ['Ã', '«'] ['ë'] = u from pyReplace_of_head_not_mem u hC,
    show pyReplace u ['Ã', '¯'] ['ï'] = u from pyReplace_of_head_not_mem u hC,
    show pyReplace u ['Ã', '¶'] ['ö'] = u from pyReplace_of_head_not_mem u hC,
    show pyReplace u ['Ã', '¼'] ['ü'] = u from pyReplace_of_head_not_mem u hC,
    show pyReplace u ['Ã', ' '] ['à'] = u from pyReplace_of_head_not_mem u hC,
    show pyReplace u ['Γ', 'Ç', 'ô'] ['–'] = u from pyReplace_of_head_not_mem u hG,
    show pyReplace u ['Γ', 'Ç', 'ö'] ['—'] = u from pyReplace_of_head_not_mem u hG,
    show pyReplace u ['Γ', 'Ç', 'ï'] [] = u from pyReplace_of_head_not_mem u hG,
    show pyReplace u ['Γ', 'Ç', '£'] ['"'] = u from pyReplace_of_head_not_mem u hG,
    show pyReplace u ['Γ', 'Ç', 'ª'] ['…'] = u from pyReplace_of_head_not_mem u hG]

/-- C2 (amended): `fix_encoding` is idempotent on every string free of the
mojibake trigger characters `â`, `Ã`, `Γ`.  (It is NOT idempotent in
general: the zero-width-space deletion can splice two halves of a key
together, see the counterexample.) -/
theorem c2_fix_encoding_idempotent_on_trigger_free (s : String)
    (h : noMojibakeTriggers s) :
    fix_encoding (fix_encoding s) = fix_encoding s := by
  have hdata : ∀ t : String, (fix_encoding t).data = fixEncodingL t.data := by
    intro t
    rw [fix_encoding]
  have h1 : fixEncodingL s.data = pyReplace (pyReplace s.data ['​'] []) ['﻿'] [] :=
    fixEncodingL_of_no_triggers s.data h
  set v := pyReplace s.data ['​'] [] with hv
  set w := pyReplace v ['﻿'] [] with hw
  have hw_sub : ∀ c ∈ w, c ∈ s.data := by
    intro c hc
    rcases mem_pyReplace hc with hcv | hcr
    · rcases mem_pyReplace hcv with hcs | hcr'
      · exact hcs
      · exact absurd hcr' (List.not_mem_nil c)
    · exact absurd hcr (List.not_mem_nil c)
  have hw_trig : ∀ c ∈ w, c ≠ 'â' ∧ c ≠ 'Ã' ∧ c ≠ 'Γ' :=
    fun c hc => h c (hw_sub c hc)
  have hzw_v : '​' ∉ v := not_mem_pyReplace_single (List.not_mem_nil _) s.data
  have hzw_w : '​' ∉ w := by
    intro hmem
    rcases mem_pyReplace hmem with hcv | hcr
    · exact hzw_v hcv
    · exact absurd hcr (List.not_mem_nil _)
  have hbom_w : '﻿' ∉ w := not_mem_pyReplace_single (List.not_mem_nil _) v
  have h2 : fixEncodingL w = w := by
    rw [fixEncodingL_of_no_triggers w hw_trig]
    rw [show pyReplace w ['​'] [] = w from pyReplace_of_head_not_mem w hzw_w]
    exact pyReplace_of_head_not_mem w hbom_w
  apply String.ext
  rw [hdata, hdata, h1]
  exact h2

/-- Witness for C2 at the trigger-free string `"Hello – world"`. -/
theorem c2_fix_encoding_idempotent_witness :
    noMojibakeTriggers "Hello – world"
    ∧ fix_encoding (fix_encoding "Hello – world") = fix_encoding "Hello – world" := by
  have htrig : noMojibakeTriggers "Hello – world" := by
    unfold noMojibakeTriggers
    decide
  exact ⟨htrig, c2_fix_encoding_idempotent_on_trigger_free "Hello – world" htrig⟩

/-- Counterexample for C2 as frozen: on `"Ã" + U+200B + "©"` the first pass
deletes the zero-width space, creating the key `"Ã©"` which only the second
pass rewrites to `"é"` — so applying `fix_encoding` twice differs from
applying it once. -/
theorem c2_fix_encoding_not_idempotent_counterexample :
    fix_encoding (fix_encoding "Ã​©") ≠ fix_encoding "Ã​©"
    ∧ fix_encoding "Ã​©" = "Ã©"
    ∧ fix_encoding (fix_encoding "Ã​©") = "é" := ⟨by decide, by decide, by decide⟩

/-! ### The rendering functions thread the tree through unchanged -/

mutual

theorem render_node_state : ∀ n : SpecNode, (render_node n).2 = n
  | .mk t lvl ord tx mks cs => by
    have h1 := render_children_state cs
    have h2 := render_th_cells_state cs
    have h3 := render_td_cells_state cs
    rw [render_node]
    simp only [apply_ite (Prod.snd : String × SpecNode → SpecNode), h1, h2, h3, ite_self]

theorem render_children_state : ∀ l : List SpecNode, (render_children l).2 = l
  | [] => rfl
  | c :: rest => by
    have h1 := render_node_state c
    have h2 := render_children_state rest
    rw [render_children]
    simp only [h1, h2]

theorem render_th_cells_state : ∀ l : List SpecNode, (render_th_cells l).2 = l
  | [] => rfl
  | .mk t lvl ord tx mks gcs :: rest => by
    have h1 := render_children_state gcs
    have h2 := render_th_cells_state rest
    rw [render_th_cells]
    simp only [h1, h2]

theorem render_td_cells_state : ∀ l : List SpecNode, (render_td_cells l).2 = l
  | [] => rfl
  | .mk t lvl ord tx mks gcs :: rest => by
    have h1 := render_children_state gcs
    have h2 := render_td_cells_state rest
    rw [render_td_cells]
    simp only [h1, h2]

end

mutual

theorem render_block_state : ∀ n : SpecNode, (render_block n).2 = n
  | .mk t lvl ord tx mks cs => by
    have h1 := render_block_list_state cs
    have h2 := render_table_rows_state cs
    rw [render_block]
    simp only [apply_ite (Prod.snd : Option TNode × SpecNode → SpecNode), h1, h2, ite_self]

theorem render_block_list_state : ∀ l : List SpecNode, (render_block_list l).2 = l
  | [] => rfl
  | c :: rest => by
    have h1 := render_block_state c
    have h2 := render_block_list_state rest
    rw [render_block_list]
    simp only [h1, h2]

theorem render_table_rows_state : ∀ l : List SpecNode, (render_table_rows l).2 = l
  | [] => rfl
  | .mk t lvl ord tx mks gcs :: rest => by
    have h1 := render_row_cells_state true gcs
    have h2 := render_row_cells_state false gcs
    have h3 := render_table_rows_state rest
    rw [render_table_rows]
    simp only [apply_ite (Prod.snd : List TNode × List SpecNode → List SpecNode),
      h1, h2, h3, ite_self]

theorem render_row_cells_state : ∀ (b : Bool) (l : List SpecNode), (render_row_cells b l).2 = l
  | _, [] => rfl
  | isHeader, .mk t lvl ord tx mks gcs :: rest => by
    have h1 := render_cell_paras_state gcs
    have h2 := render_row_cells_state isHeader rest
    rw [render_row_cells]
    simp only [h1, h2]

theorem render_cell_paras_state : ∀ l : List SpecNode, (render_cell_paras l).2 = l
  | [] => rfl
  | c :: rest => by
    have h1 := render_block_state c
    have h2 := render_cell_paras_state rest
    rw [render_cell_paras]
    simp only [h1, h2]

end

/-- C9: rendering a canonical tree with the HTML renderer and with the
TipTap renderer leaves the tree unchanged — both renderers are read-only
(the tree threaded through every rendering function comes back equal to the
input). -/
theorem c9_renderers_read_only (tr : SpecNode) :
    (spec_to_html tr).2 = tr ∧ (spec_to_tiptap tr).2 = tr := by
  constructor
  · show (spec_to_html tr).2 = tr
    rw [spec_to_html]
    exact render_node_state tr
  · match tr with
    | .mk t lvl ord tx mks cs =>
      rw [spec_to_tiptap]
      split_ifs <;> simp [render_block_list_state cs]

/-! ### Builder output satisfies the Text-child invariant -/

theorem nodeOk_mkText (t : String) (mks : List String) : nodeOk (mkText t mks) = true := by
  rw [mkText, nodeOk]
  rw [if_neg (by simp [tText, tHeading, tParagraph])]
  rfl

theorem convert_text_children_mem (tcs : List RunNode) :
    ∀ rn ∈ convert_text_children_to_spec tcs,
      rn.ntypeOf = tText ∧ rn.childrenOf = [] := by
  intro rn hrn
  rw [convert_text_children_to_spec] at hrn
  split at hrn
  · rw [List.mem_singleton] at hrn
    subst hrn
    exact ⟨rfl, rfl⟩
  · obtain ⟨child, _, hsome⟩ := List.mem_filterMap.mp hrn
    split at hsome
    · injection hsome with hEq
      subst hEq
      exact ⟨rfl, rfl⟩
    · exact absurd hsome (by simp)

theorem convert_text_children_ne_nil (tcs : List RunNode) :
    convert_text_children_to_spec tcs ≠ [] := by
  rw [convert_text_children_to_spec]
  split
  · simp
  · next hres =>
    intro hnil
    rw [hnil] at hres
    exact hres rfl

theorem hasTextChild_of_text_head : ∀ (l : List SpecNode), l ≠ [] →
    (∀ n ∈ l, n.ntypeOf = tText) → hasTextChild l = true := by
  intro l hne hall
  cases l with
  | nil => exact absurd rfl hne
  | cons c cs =>
    rw [hasTextChild]
    have := hall c (List.mem_cons_self _ _)
    simp [this]

theorem forestOk_of_text_leaves : ∀ (l : List SpecNode),
    (∀ n ∈ l, n.ntypeOf = tText ∧ n.childrenOf = []) → forestOk l = true := by
  intro l
  induction l with
  | nil => intro _; rfl
  | cons c cs ih =>
    intro hall
    rw [forestOk, Bool.and_eq_true]
    refine ⟨?_, ih (fun n hn => hall n (List.mem_cons_of_mem _ hn))⟩
    obtain ⟨ht, hc⟩ := hall c (List.mem_cons_self _ _)
    cases c with
    | mk t lvl ord tx mks gcs =>
      have ht' : t = tText := ht
      have hc' : gcs = [] := hc
      subst ht'
      subst hc'
      rw [nodeOk]
      rw [if_neg (by simp [tText, tHeading, tParagraph])]
      rfl

/-- The children list a Heading/Paragraph/ListItem body gets: nonempty, all
Text leaves, hence both checker conditions hold. -/
theorem spec_children_ok (tcs : List RunNode) (txt : String) :
    hasTextChild (if tcs.isEmpty then [mkText txt []]
                  else convert_text_children_to_spec tcs) = true
    ∧ forestOk (if tcs.isEmpty then [mkText txt []]
                else convert_text_children_to_spec tcs) = true := by
  split
  · constructor
    · rw [hasTextChild]
      simp [mkText, SpecNode.ntypeOf]
    · rw [forestOk, Bool.and_eq_true]
      exact ⟨nodeOk_mkText _ _, rfl⟩
  · constructor
    · exact hasTextChild_of_text_head _ (convert_text_children_ne_nil tcs)
        (fun n hn => (convert_text_children_mem tcs n hn).1)
    · exact forestOk_of_text_leaves _ (convert_text_children_mem tcs)

theorem nodeOk_paragraph_of_children (cs : List SpecNode)
    (h1 : hasTextChild cs = true) (h2 : forestOk cs = true) :
    nodeOk (SpecNode.mk tParagraph none none "" [] cs) = true := by
  rw [nodeOk]
  rw [if_pos (by simp [tParagraph])]
  rw [h1, h2]
  rfl

theorem nodeOk_buildTableCell (t : String) : nodeOk (buildTableCell t) = true := by
  rw [buildTableCell, nodeOk]
  rw [if_neg (by simp [tTableCell, tHeading, tParagraph])]
  rw [Bool.true_and, forestOk, Bool.and_eq_true]
  refine ⟨?_, rfl⟩
  refine nodeOk_paragraph_of_children _ ?_ ?_
  · rw [hasTextChild]
    simp [mkText, SpecNode.ntypeOf]
  · rw [forestOk, Bool.and_eq_true]
    exact ⟨nodeOk_mkText _ _, rfl⟩

theorem forestOk_map_buildTableCell (row : List String) :
    forestOk (row.map buildTableCell) = true := by
  induction row with
  | nil => rfl
  | cons t ts ih =>
    rw [List.map_cons, forestOk, Bool.and_eq_true]
    exact ⟨nodeOk_buildTableCell t, ih⟩

theorem forestOk_buildTableRows : ∀ (rows : List (List String)) (idx : Nat),
    forestOk (buildTableRows idx rows) = true := by
  intro rows
  induction rows with
  | nil => intro _; rfl
  | cons row rest ih =>
    intro idx
    rw [buildTableRows, forestOk, Bool.and_eq_true]
    refine ⟨?_, ih (idx + 1)⟩
    rw [nodeOk]
    refine (Bool.and_eq_true _ _).mpr ⟨?_, forestOk_map_buildTableCell row⟩
    split
    · rw [if_neg (by simp [tTableHeaderRow, tHeading, tParagraph])]
    · rw [if_neg (by simp [tTableRow, tHeading, tParagraph])]

theorem nodeOk_buildBulletItem (item : ItemB) : nodeOk (buildBulletItem item) = true := by
  rw [buildBulletItem]
  obtain ⟨h1, h2⟩ := spec_children_ok item.children item.text
  rw [nodeOk]
  rw [if_neg (by simp [tListItem, tHeading, tParagraph])]
  rw [Bool.true_and, forestOk, Bool.and_eq_true]
  exact ⟨nodeOk_paragraph_of_children _ h1 h2, rfl⟩

theorem forestOk_buildOrderedItems : ∀ (items : List ItemB) (idx : Nat),
    forestOk (buildOrderedItems idx items) = true := by
  intro items
  induction items with
  | nil => intro _; rfl
  | cons item rest ih =>
    intro idx
    rw [buildOrderedItems, forestOk, Bool.and_eq_true]
    refine ⟨?_, ih (idx + 1)⟩
    obtain ⟨h1, h2⟩ := spec_children_ok item.children item.text
    rw [nodeOk]
    rw [if_neg (by simp [tListItem, tHeading, tParagraph])]
    rw [Bool.true_and, forestOk, Bool.and_eq_true]
    exact ⟨nodeOk_paragraph_of_children _ h1 h2, rfl⟩

theorem nodeOk_of_buildBlock (b : Block) (n : SpecNode)
    (h : buildBlock b = some n) : nodeOk n = true := by
  simp only [buildBlock] at h
  split at h
  · -- heading
    injection h with hEq
    subst hEq
    obtain ⟨h1, h2⟩ := spec_children_ok b.children (pyStrip b.text)
    rw [nodeOk]
    rw [if_pos (by simp [tHeading])]
    rw [h1, h2]
    rfl
  · split at h
    · -- table
      split at h
      · exact absurd h (by simp)
      · injection h with hEq
        subst hEq
        rw [nodeOk]
        rw [if_neg (by simp [tTable, tHeading, tParagraph])]
        rw [Bool.true_and]
        exact forestOk_buildTableRows b.rows 0
    · split at h
      · -- bulletList
        split at h
        · exact absurd h (by simp)
        · injection h with hEq
          subst hEq
          rw [nodeOk]
          rw [if_neg (by simp [tBulletList, tHeading, tParagraph])]
          rw [Bool.true_and]
          have hmap : ∀ its : List ItemB, forestOk (its.map buildBulletItem) = true := by
            intro its
            induction its with
            | nil => rfl
            | cons it rest ih =>
              rw [List.map_cons, forestOk, Bool.and_eq_true]
              exact ⟨nodeOk_buildBulletItem it, ih⟩
          exact hmap b.items
      · split at h
        · -- orderedList
          split at h
          · exact absurd h (by simp)
          · injection h with hEq
            subst hEq
            rw [nodeOk]
            rw [if_neg (by simp [tOrderedList, tHeading, tParagraph])]
            rw [Bool.true_and]
            exact forestOk_buildOrderedItems b.items 0
        · split at h
          · -- paragraph
            split at h
            · exact absurd h (by simp)
            · injection h with hEq
              subst hEq
              obtain ⟨h1, h2⟩ := spec_children_ok b.children (pyStrip b.text)
              exact nodeOk_paragraph_of_children _ h1 h2
          · exact absurd h (by simp)

/-- C10: in every tree produced by the Spec Builder, every Heading and every
Paragraph node (including the Paragraphs wrapped inside ListItem and
TableCell nodes) has at least one Text child — when a block's run children
exist but none has type "text", the builder substitutes a single empty Text
node rather than an empty children list (`convert_text_children_to_spec`). -/
theorem c10_builder_text_child_invariant (doc_id : String) (page_count : Int)
    (page_contents : List Page) :
    nodeOk (generate_spec_from_content doc_id page_count page_contents) = true := by
  rw [generate_spec_from_content]
  rw [nodeOk]
  rw [if_neg (by simp [tDocument, tHeading, tParagraph])]
  rw [Bool.true_and]
  split
  · -- fallback paragraph
    rw [forestOk, Bool.and_eq_true]
    refine ⟨?_, rfl⟩
    rw [fallbackParagraph]
    refine nodeOk_paragraph_of_children _ ?_ ?_
    · rw [hasTextChild]
      simp [mkText, SpecNode.ntypeOf]
    · rw [forestOk, Bool.and_eq_true]
      exact ⟨nodeOk_mkText _ _, rfl⟩
  · -- per-block children
    have hpage : ∀ (blocks : List Block), forestOk (blocks.filterMap buildBlock) = true := by
      intro blocks
      induction blocks with
      | nil => rfl
      | cons b bs ih =>
        rw [List.filterMap_cons]
        cases hb : buildBlock b with
        | none => exact ih
        | some n =>
          rw [forestOk, Bool.and_eq_true]
          exact ⟨nodeOk_of_buildBlock b n hb, ih⟩
    have hall : ∀ (pcs : List Page),
        forestOk (pcs.flatMap (fun page => page.content.filterMap buildBlock)) = true := by
      intro pcs
      induction pcs with
      | nil => rfl
      | cons pg rest ih =>
        rw [List.flatMap_cons]
        exact forestOk_append (hpage pg.content) ih
    exact hall page_contents
